import Mathlib

/-!
# A.V.A — shallow embedding and verification

A shallow embedding, in Lean, of the message-classification core of the
A.V.A repository (`assistant/chatbot.py`, `assistant/features/calculator.py`,
`assistant/features/dictionary.py`, `assistant/features/todo.py`), together
with theorems settling the testable properties of its specification.

Modelling conventions, stated once:

* Python strings are `String`/`List Char`.  The source file of the repository
  is UTF-8 with some double-encoded ("mojibake") characters; string literals
  below reproduce the exact code points Python reads from that file, written
  as `\u` escapes when outside printable ASCII.
* Python's Unicode-aware character classes (`\w`, `\s`, `str.lower`,
  `str.strip`) are modelled exactly on ASCII plus the only non-ASCII code
  points occurring in the repository's pattern data (U+00E2 and its upper-case
  form U+00C2); other astral characters are treated as plain non-word,
  non-space characters.  All data in the intent table and every concrete
  input appearing in a theorem below lies inside the exactly-modelled set.
* Randomness (`random.choice`) is modelled by quantifying over the index of
  the chosen element, and the network call of the dictionary feature by an
  `Option String` argument holding the definition the external service
  produced, `none` on any failure.
-/

namespace AVA

/-- Python's whitespace class `\s`, on the ASCII range (` `, TAB, LF, CR, VT, FF). -/
def pySpace (c : Char) : Bool :=
  c == ' ' || c == '\t' || c == '\n' || c == '\r' || c == '\x0b' || c == '\x0c'

/-- ASCII `A`–`Z`. -/
def isAsciiUpper (c : Char) : Bool := 65 ≤ c.toNat && c.toNat ≤ 90

/-- ASCII `a`–`z`. -/
def isAsciiLower (c : Char) : Bool := 97 ≤ c.toNat && c.toNat ≤ 122

/-- ASCII `0`–`9` (the regex class `\d`, modelled on ASCII). -/
def isAsciiDigit (c : Char) : Bool := 48 ≤ c.toNat && c.toNat ≤ 57

/-- Python's `str.lower`, on ASCII plus U+00C2 (the only non-ASCII cased
character occurring in the repository's data; it lowercases to U+00E2). -/
def pyLower (c : Char) : Char :=
  if isAsciiUpper c then Char.ofNat (c.toNat + 32) else if c = 'Â' then 'â' else c

/-- Python's word-character class `\w` (used by the regex word boundary `\b`),
on ASCII plus the letter U+00E2/U+00C2 occurring in the intent patterns. -/
def isWordChar (c : Char) : Bool :=
  isAsciiLower c || isAsciiUpper c || isAsciiDigit c || c == '_' || c == 'â' || c == 'Â'

/-- `str.strip()`: drop leading and trailing whitespace. -/
def pyStripL (l : List Char) : List Char :=
  (l.dropWhile pySpace).rdropWhile pySpace

/-- An intent of the `intents` table: its trigger patterns and candidate replies. -/
structure IntentData where
  patterns : List String
  responses : List String
deriving DecidableEq

/-- The "greet" intent of the `intents` table in chatbot.py (patterns and responses verbatim;
non-ASCII code points of the source file are written as \u escapes). -/
def greetData : IntentData where
  patterns := ["hi", "hello", "hey", "good morning", "good evening", "morning", "gm", "good afternoon", "afternoon", "good night", "night", "hiya", "yo", "sup", "hey there", "what\u00E2\u20AC\u2122s up", "whats up", "wassup", "wazzup", "long time no see", "nice to meet you", "pleased to meet you", "howdy", "greetings", "salutations", "hola", "bonjour", "namaste", "salaam", "ciao", "aloha", "hiya buddy", "hi assistant", "hello friend", "yo assistant", "are you there", "anyone there", "knock knock", "hi bot", "hello ai", "hello there", "hi there"]
  responses := ["Hello! How can I help you today?", "Hey there!", "Hi, what\u00E2\u20AC\u2122s up?", "Hello friend! How are you doing?", "Greetings! How may I help?", "Hi there, nice to see you!", "Hey! I\u00E2\u20AC\u2122m here to assist you."]

/-- The "goodbye" intent of the `intents` table in chatbot.py (patterns and responses verbatim;
non-ASCII code points of the source file are written as \u escapes). -/
def goodbyeData : IntentData where
  patterns := ["bye", "goodbye", "see you", "see ya", "later", "talk to you later", "catch you later", "farewell", "take care", "see you soon", "bye bye", "good night", "nighty night", "adios", "ciao"]
  responses := ["Goodbye!", "See you later!", "Bye! Take care.", "Catch you later!", "Farewell, friend!", "Bye bye \u00F0\u0178\u2018\u2039"]

/-- The "thanks" intent of the `intents` table in chatbot.py (patterns and responses verbatim;
non-ASCII code points of the source file are written as \u escapes). -/
def thanksData : IntentData where
  patterns := ["thanks", "thank you", "thx", "ty", "thanks a lot", "thank you very much", "many thanks", "appreciate it", "thanks so much", "cheers", "much obliged"]
  responses := ["You're welcome!", "Glad I could help!", "Anytime!", "No problem at all!", "My pleasure!", "Don\u00E2\u20AC\u2122t mention it \u00F0\u0178\u2122\u201A"]

/-- The "how_are_you" intent of the `intents` table in chatbot.py (patterns and responses verbatim;
non-ASCII code points of the source file are written as \u escapes). -/
def how_are_youData : IntentData where
  patterns := ["how are you", "how are you doing", "how\u00E2\u20AC\u2122s it going", "how do you do", "you good", "are you okay", "what\u00E2\u20AC\u2122s up with you", "how have you been"]
  responses := ["I\u00E2\u20AC\u2122m doing great! How about you?", "I\u00E2\u20AC\u2122m fine, thanks for asking.", "I\u00E2\u20AC\u2122m feeling awesome today!", "I\u00E2\u20AC\u2122m all good \u00E2\u20AC\u201D ready to help you!", "I\u00E2\u20AC\u2122m doing well, how are you doing?"]

/-- The "who_are_you" intent of the `intents` table in chatbot.py (patterns and responses verbatim;
non-ASCII code points of the source file are written as \u escapes). -/
def who_are_youData : IntentData where
  patterns := ["who are you", "what are you", "what is your name", "who am i talking to", "identify yourself"]
  responses := ["I\u00E2\u20AC\u2122m your AI Virtual Assistant \u00F0\u0178\u00A4\u2013", "I\u00E2\u20AC\u2122m Ava, your personal AI helper!", "I\u00E2\u20AC\u2122m your assistant, here to chat and help you."]

/-- The "feelings" intent of the `intents` table in chatbot.py (patterns and responses verbatim;
non-ASCII code points of the source file are written as \u escapes). -/
def feelingsData : IntentData where
  patterns := ["i am sad", "i feel lonely", "i\u00E2\u20AC\u2122m happy", "i am excited", "i feel bored", "i\u00E2\u20AC\u2122m angry", "i feel nervous", "i feel good", "i feel great"]
  responses := ["I hear you. Do you want to talk about it?", "That\u00E2\u20AC\u2122s great to hear! \u00F0\u0178\u017D\u2030", "I\u00E2\u20AC\u2122m here for you whenever you need me.", "It\u00E2\u20AC\u2122s okay to feel that way sometimes.", "I\u00E2\u20AC\u2122m glad you\u00E2\u20AC\u2122re sharing your feelings with me."]

/-- The "compliment" intent of the `intents` table in chatbot.py (patterns and responses verbatim;
non-ASCII code points of the source file are written as \u escapes). -/
def complimentData : IntentData where
  patterns := ["you are smart", "you are nice", "you are awesome", "you are cool", "you are funny", "you are helpful", "good job", "well done"]
  responses := ["Aww, thank you! \u00F0\u0178\u02DC\u0160", "That means a lot!", "Glad you think so!", "You\u00E2\u20AC\u2122re awesome too!"]

/-- The "insult" intent of the `intents` table in chatbot.py (patterns and responses verbatim;
non-ASCII code points of the source file are written as \u escapes). -/
def insultData : IntentData where
  patterns := ["you are stupid", "you are dumb", "you are useless", "you are bad", "you are annoying", "you are boring"]
  responses := ["That\u00E2\u20AC\u2122s not very nice \u00F0\u0178\u02DC\u201D", "I\u00E2\u20AC\u2122m still learning, please be patient with me.", "I\u00E2\u20AC\u2122m sorry you feel that way."]

/-- The `intents` dict of chatbot.py, in its declaration order (Python dicts preserve
insertion order, and `get_response` iterates them in that order). -/
def intents : List (String × IntentData) := [
  ("greet", greetData),
  ("goodbye", goodbyeData),
  ("thanks", thanksData),
  ("how_are_you", how_are_youData),
  ("who_are_you", who_are_youData),
  ("feelings", feelingsData),
  ("compliment", complimentData),
  ("insult", insultData)
]

/-! ## The compiled-pattern matcher

chatbot.py compiles each pattern `p` to `re.compile(rf"\b{re.escape(p)}\b", re.IGNORECASE)`
and tests `pattern.search(user_msg)`.  `re.escape` makes `p` a literal, so the regex
matches iff at some position `i` the pattern occurs case-insensitively and a word
boundary holds immediately before position `i` and immediately after position
`i + |p|`.  A word boundary holds at a position iff exactly one of the two adjacent
characters (out-of-range counts as non-word) is a word character. -/

/-- Case-insensitive "the first list is a prefix of the second" (re.IGNORECASE
compares via lowercasing). -/
def ciStarts : List Char → List Char → Bool
  | [], _ => true
  | _ :: _, [] => false
  | p :: ps, s :: ss => (pyLower p == pyLower s) && ciStarts ps ss

/-- Is the character at index `i` (if any) a word character? -/
def wordAt (s : List Char) (i : Nat) : Bool :=
  match s[i]? with
  | some c => isWordChar c
  | none => false

/-- Does the regex word boundary `\b` hold at position `i` of `s`? -/
def boundaryAt (s : List Char) : Nat → Bool
  | 0 => wordAt s 0
  | i + 1 => wordAt s i != wordAt s (i + 1)

/-- One candidate match of `\b p \b` at position `i`. -/
def wwMatchAt (p s : List Char) (i : Nat) : Bool :=
  ciStarts p (s.drop i) && boundaryAt s i && boundaryAt s (i + p.length)

/-- `re.search` of the compiled pattern: some position matches. -/
def wwSearch (p s : List Char) : Bool :=
  (List.range (s.length + 1)).any (wwMatchAt p s)

/-- Does some pattern of the intent match the (raw) message? -/
def intentMatches (d : IntentData) (msg : String) : Bool :=
  d.patterns.any (fun p => wwSearch p.data msg.data)

/-- The intent-table scan of `get_response` step 3: first intent (in table
order) any of whose patterns matches wins. -/
def findIntent : List (String × IntentData) → String → Option (String × IntentData)
  | [], _ => none
  | e :: rest, msg => if intentMatches e.2 msg then some e else findIntent rest msg

/-- Step 3 of `get_response` on the full table. -/
def matchIntent (msg : String) : Option (String × IntentData) :=
  findIntent intents msg

/-- Every trigger pattern of every intent, in table order. -/
def allPatterns : List String := (intents.map (fun e => e.2.patterns)).flatten

/-! ## Text normalizer

`_normalize(s) = re.sub(r"[^a-z0-9\s]+", "", s.lower()).strip()`. -/

/-- Characters kept by `_normalize`'s substitution: lowercase ASCII letter,
ASCII digit, or whitespace (the complement of `[^a-z0-9\s]`). -/
def normKeep (c : Char) : Bool :=
  isAsciiLower c || isAsciiDigit c || pySpace c

/-- `_normalize` of chatbot.py: lowercase, delete every character that is not
a lowercase letter, digit or whitespace, then strip. -/
def pyNormalize (s : String) : String :=
  String.mk (pyStripL ((s.data.map pyLower).filter normKeep))

/-! ## Dictionary-query detector and dictionary feature

`_is_dictionary_query` tries, in order, the regexes `meaning of (.+)`,
`what does (.+) mean`, `define (.+)`, `definition of (.+)` with `re.search`
and `re.IGNORECASE`, returning the stripped first capture of the first
pattern that matches anywhere in the message.  `.` does not match a newline,
so a capture is a nonempty newline-free run. -/

/-- `re.search(lit + "(.+)", s)`: at the leftmost position where the literal
matches (case-insensitively) and is followed by at least one non-newline
character, capture the greedy run of non-newline characters. -/
def capAfter (lit : List Char) : List Char → Option (List Char)
  | [] => none
  | c :: cs =>
    if ciStarts lit (c :: cs) then
      let rest := ((c :: cs).drop lit.length).takeWhile (fun x => x ≠ '\n')
      if rest.isEmpty then capAfter lit cs else some rest
    else capAfter lit cs

/-- The greedy capture of `(.+)lit2` against `t`: the longest nonempty
newline-free prefix of `t` followed immediately by a (case-insensitive)
occurrence of `lit2`. -/
def greedyCap (lit2 t : List Char) : Option (List Char) :=
  ((List.range (t.length + 1)).reverse).findSome? (fun k =>
    if k != 0 && (t.take k).all (fun x => x ≠ '\n') && ciStarts lit2 (t.drop k)
    then some (t.take k) else none)

/-- `re.search(lit1 + "(.+)" + lit2, s)`: leftmost occurrence of `lit1` from
which the greedy capture succeeds. -/
def capBetween (lit1 lit2 : List Char) : List Char → Option (List Char)
  | [] => none
  | c :: cs =>
    if ciStarts lit1 (c :: cs) then
      match greedyCap lit2 ((c :: cs).drop lit1.length) with
      | some g => some g
      | none => capBetween lit1 lit2 cs
    else capBetween lit1 lit2 cs

/-- `_is_dictionary_query` of chatbot.py: the four phrasal templates in
declaration order, first successful search wins; the capture is stripped. -/
def is_dictionary_query (user_msg : String) : Option String :=
  ((capAfter "meaning of ".data user_msg.data) <|>
   (capBetween "what does ".data " mean".data user_msg.data) <|>
   (capAfter "define ".data user_msg.data) <|>
   (capAfter "definition of ".data user_msg.data)).map
    (fun g => String.mk (pyStripL g))

/-- `get_meaning` of features/dictionary.py.  The HTTP call and the JSON
indexing `res[0]["meanings"][0]["definitions"][0]["definition"]` are modelled
by `api : Option String`: the definition text the external service yields
when every step succeeds, `none` on any failure (not-found, network error,
malformed response, timeout).  The source returns that text on success and
the literal string "Meaning not found." from its `except` handler on any
failure — it never returns `None`. -/
def get_meaning (api : Option String) : String :=
  match api with
  | some d => d
  | none => "Meaning not found."

/-- The reply template of `get_response` step 4 for a falsy `get_meaning`
result.  The source file's text is `Sorry, I couldnâ€™t find
the meaning of '<word>'.` (mojibake for a right single quotation mark). -/
def sorryReply (w : String) : String :=
  "Sorry, I couldnâ€™t find the meaning of '" ++ w ++ "'."

/-- Steps 1–4 of `get_response` of chatbot.py: the blank-input guard, the
normalization guard, the intent-table scan (`random.choice` modelled by the
index `pick`), and the dictionary stage (`api` as in `get_meaning`).  The
source guards the dictionary stage with `if word:` (Python truthiness), so an
extracted term that strips to the empty string falls through as if there were
no match.  The result is `none` exactly when control falls through to the
later stages (calculator, todo, fuzzy matching, fallback), which are modelled
by their own functions below and are not exercised by any claim about
`get_response`. -/
def get_response (pick : Nat) (msg : String) (api : Option String) : Option String :=
  if (pyStripL msg.data).isEmpty then some "Please say something so I can help."
  else
    let normalized := pyNormalize msg
    if normalized = "" then some "Please say something so I can help."
    else
      match matchIntent msg with
      | some (_, d) => some (d.responses.getD (pick % d.responses.length) "")
      | none =>
        match is_dictionary_query normalized with
        | some w =>
          if w = "" then none
          else
            let meaning := get_meaning api
            some (if meaning = "" then sorryReply w else meaning)
        | none => none

/-! ## Todo store (features/todo.py)

The module-level `tasks` list is threaded explicitly; `_save_tasks` (file
persistence) has no observable effect on the list and is dropped.  The
`datetime.now().isoformat()` timestamp is passed in as `now`. -/

/-- A task record of features/todo.py. -/
structure Task where
  id : Nat
  title : String
  status : String
  created_at : String
deriving DecidableEq

/-- `str.lower` on a string, character by character. -/
def lowerStr (s : String) : String := String.mk (s.data.map pyLower)

/-- `add_task` of features/todo.py: strip the title, reject empty or
(case-insensitively) duplicate titles, else append a task with id
`len(tasks) + 1`, status "pending". -/
def add_task (now : String) (title : String) (tasks : List Task) : String × List Task :=
  let t := String.mk (pyStripL title.data)
  if t = "" then ("Task cannot be empty", tasks)
  else if tasks.any (fun tk => lowerStr tk.title == lowerStr t) then
    ("Task already exists", tasks)
  else
    ("Task added: " ++ t,
     tasks ++ [{ id := tasks.length + 1, title := t, status := "pending", created_at := now }])

/-- `get_tasks` of features/todo.py. -/
def get_tasks (status : Option String) (tasks : List Task) : List Task :=
  if status == some "pending" || status == some "done" || status == none then
    tasks.filter (fun t => status == none || status == some t.status)
  else []

/-- `remove_task` of features/todo.py: delete the first task whose id matches,
else report "Task not found". -/
def remove_task (task_id : Nat) : List Task → String × List Task
  | [] => ("Task not found", [])
  | t :: ts =>
    if t.id = task_id then ("Removed task: " ++ t.title, ts)
    else
      let r := remove_task task_id ts
      (r.1, t :: r.2)

/-- `mark_done` of features/todo.py: set the first id-matching task's status
to "done", else report "Task not found". -/
def mark_done (task_id : Nat) : List Task → String × List Task
  | [] => ("Task not found", [])
  | t :: ts =>
    if t.id = task_id then ("Marked done: " ++ t.title, { t with status := "done" } :: ts)
    else
      let r := mark_done task_id ts
      (r.1, t :: r.2)

/-! ## Todo-command detector (`_is_todo_query` of chatbot.py) -/

/-- The structured result of `_is_todo_query`. -/
inductive TodoCmd where
  | add (title : String)
  | showCmd
  | remove (arg : String)
  | done (id : Nat)
deriving DecidableEq

/-- `int()` on a nonempty ASCII digit string. -/
def digitsToNat (ds : List Char) : Nat :=
  ds.foldl (fun a c => 10 * a + (c.toNat - '0'.toNat)) 0

/-- `_is_todo_query` of chatbot.py, on `user_msg.strip().lower()`: the four
rules in order, first match winning.  `re.match(r"show tasks?", m)` is a
prefix test for "show task" (the trailing `s?` can match zero characters);
`re.match(r"mark done (\d+)", m)` demands at least one digit right after the
prefix and captures the maximal digit run. -/
def is_todo_query (user_msg : String) : Option TodoCmd :=
  let m : List Char := (pyStripL user_msg.data).map pyLower
  if "add task ".data.isPrefixOf m then
    some (.add (String.mk (pyStripL (m.drop 9))))
  else if "show task".data.isPrefixOf m then
    some .showCmd
  else if "remove task ".data.isPrefixOf m then
    let name := pyStripL (m.drop 12)
    if name.isEmpty then none else some (.remove (String.mk name))
  else if "mark done ".data.isPrefixOf m then
    let ds := (m.drop 10).takeWhile isAsciiDigit
    if ds.isEmpty then none else some (.done (digitsToNat ds))
  else none

/-! ## Calculator-expression detector (`_is_calculator_query` of chatbot.py)

The function lowercases the raw message, tries the anchored phrasal regexes
`^\s*what\s+is\s+(.+)$`, `^\s*calculate\s+(.+)$`, `^\s*solve\s+(.+)$` in
order — keeping only the characters `[0-9+\-*/%.()\s]` of the capture,
stripping, and demanding a surviving operator — and otherwise accepts the
whole message when `re.fullmatch(r"[0-9+\-*/%.()\s]+", msg)` holds and an
operator is present. -/

/-- A character kept by the detector's substitution (the class
`[0-9+\-*/%.()\s]`). -/
def calcKeep (c : Char) : Bool :=
  isAsciiDigit c || c == '+' || c == '-' || c == '*' || c == '/' || c == '%' ||
  c == '.' || c == '(' || c == ')' || pySpace c

/-- Does an arithmetic operator `[+\-*/%]` occur? -/
def hasOpL (s : List Char) : Bool :=
  s.any (fun c => c == '+' || c == '-' || c == '*' || c == '/' || c == '%')

/-- Match `\s+(.+)$` against the whole remainder `s4` (Python semantics: `.`
excludes newline; `$` also matches just before a newline that ends the
string; `\s+` is greedy and backtracks minimally).  Returns the capture. -/
def matchTailGroup (s4 : List Char) : Option (List Char) :=
  let core := if s4.getLast? == some '\n' then s4.dropLast else s4
  let a := core.takeWhile pySpace
  let g := core.dropWhile pySpace
  if !g.isEmpty then
    if !a.isEmpty && g.all (fun x => x ≠ '\n') then some g else none
  else if 2 ≤ a.length && a.getLast? != some '\n' then
    -- all-whitespace remainder: `\s+` gives one character back to `(.+)`
    some (a.drop (a.length - 1))
  else none

/-- Consume the keyword part `kw1(\s+kwi)*` of a phrasal pattern, returning
the remainder that `\s+(.+)$` must match. -/
def eatKws : List (List Char) → List Char → Option (List Char)
  | [], s => some s
  | k :: ks, s =>
    if k.isPrefixOf s then
      match ks with
      | [] => some (s.drop k.length)
      | _ :: _ =>
        match s.drop k.length with
        | c :: cs => if pySpace c then eatKws ks (cs.dropWhile pySpace) else none
        | [] => none
    else none

/-- One phrasal pattern `^\s*kw1\s+...\s+(.+)$` of `_is_calculator_query`:
on a match, strip the capture to the calculator character set, trim, and
keep it only if an operator survives. -/
def tryPhrasal (kws : List (List Char)) (msg : List Char) : Option (List Char) :=
  match eatKws kws (msg.dropWhile pySpace) with
  | none => none
  | some s4 =>
    match matchTailGroup s4 with
    | none => none
    | some g =>
      let e := pyStripL (g.filter calcKeep)
      if hasOpL e then some e else none

/-- `_is_calculator_query` of chatbot.py. -/
def is_calculator_query (raw : String) : Option String :=
  let msg := raw.data.map pyLower
  ((tryPhrasal ["what".data, "is".data] msg) <|>
   (tryPhrasal ["calculate".data] msg) <|>
   (tryPhrasal ["solve".data] msg) <|>
   (if !msg.isEmpty && msg.all calcKeep && hasOpL msg
    then some (pyStripL msg) else none)).map String.mk

/-! ## Calculator evaluator (features/calculator.py)

`evaluate` removes spaces, validates against `[0-9+\\-*/%.()]+`, and runs
Python's `eval` on the survivor, converting an integral float result to int,
and mapping `ZeroDivisionError` and every other exception to fixed error
strings.  On this character set `eval` is exactly Python's arithmetic
expression grammar — number literals, `+ - * / // % **`, unary signs and
parentheses — which is embedded here as a tokenizer, a recursive-descent
parser and an evaluator.  Python ints are `ℤ`; floats are exact fractions
(`PyFloat`, kept unnormalized so that every operation is kernel-computable):
exact for everything the claims evaluate, while IEEE-754 rounding/overflow
and the complex results of fractional powers of negatives are abstracted
(see `PyFloat.powApprox`). -/

/-- A Python float, as an exact unnormalized fraction (`den ≠ 0` throughout:
literals have a power-of-ten denominator and every operation below preserves
nonzeroness of the denominator given the divisor zero-checks). -/
structure PyFloat where
  num : ℤ
  den : ℤ
deriving DecidableEq

/-- Is the value zero? -/
def PyFloat.isZero (f : PyFloat) : Bool := f.num == 0

/-- Fraction addition. -/
def PyFloat.add (a b : PyFloat) : PyFloat := ⟨a.num * b.den + b.num * a.den, a.den * b.den⟩

/-- Fraction subtraction. -/
def PyFloat.sub (a b : PyFloat) : PyFloat := ⟨a.num * b.den - b.num * a.den, a.den * b.den⟩

/-- Fraction multiplication. -/
def PyFloat.mul (a b : PyFloat) : PyFloat := ⟨a.num * b.num, a.den * b.den⟩

/-- Fraction division (the caller has excluded a zero divisor). -/
def PyFloat.div (a b : PyFloat) : PyFloat := ⟨a.num * b.den, a.den * b.num⟩

/-- `⌊f⌋` (`Int.fdiv` rounds toward `-∞` for either sign of the denominator). -/
def PyFloat.floor (f : PyFloat) : ℤ := Int.fdiv f.num f.den

/-- Python `float.is_integer`. -/
def PyFloat.isInt (f : PyFloat) : Bool := f.num % f.den == 0

/-- The integer value of an integral fraction. -/
def PyFloat.toInt (f : PyFloat) : ℤ := Int.fdiv f.num f.den

/-- `f ^ k` for a natural exponent. -/
def PyFloat.powNat (f : PyFloat) (k : Nat) : PyFloat := ⟨f.num ^ k, f.den ^ k⟩

/-- `f ^ (-k)` for a natural `k`, for a nonzero `f`. -/
def PyFloat.powNegNat (f : PyFloat) (k : Nat) : PyFloat := ⟨f.den ^ k, f.num ^ k⟩

/-- Fractional-power abstraction: for a non-integral exponent Python computes
an IEEE float (or, for a negative base, a complex number); that value is
irrational in general and is abstracted to `0` here.  No claim below depends
on a fractional-power value — only on the shape of `evaluate`'s result. -/
def PyFloat.powApprox (_base _exp : PyFloat) : PyFloat := ⟨0, 1⟩

/-- A value of the restricted `eval`: a Python `int` or `float` — or the
empty tuple, which the expression `()` (an empty parenthesis pair, legal in
this character set) evaluates to. -/
inductive Val where
  | intv (n : ℤ)
  | floatv (f : PyFloat)
  | tup0
deriving DecidableEq

/-- Is the value a number (an int or a float)? -/
def isNumber : Val → Bool
  | .intv _ => true
  | .floatv _ => true
  | .tup0 => false

/-- Tokens of the restricted expression language. -/
inductive Tok where
  | num (v : Val)
  | plus | minus | star | slash | dslash | pct | dstar | lpar | rpar
deriving DecidableEq

/-- Python number-literal munch starting at a digit or `.`: maximal
`digits [. digits]`.  A bare `.` is no number, and a nonzero integer literal
with a leading zero (e.g. `010`) is a SyntaxError in Python 3; both are
signalled by `none`. -/
def munchNum (s : List Char) : Option Val × List Char :=
  let d1 := s.takeWhile isAsciiDigit
  let r1 := s.dropWhile isAsciiDigit
  match r1 with
  | '.' :: r2 =>
    let d2 := r2.takeWhile isAsciiDigit
    let r3 := r2.dropWhile isAsciiDigit
    if d1.isEmpty && d2.isEmpty then (none, r3)
    else (some (.floatv ⟨(digitsToNat (d1 ++ d2) : ℤ), (10 : ℤ) ^ d2.length⟩), r3)
  | _ =>
    if d1.isEmpty then (none, r1)
    else if d1.headD '0' == '0' && d1.any (fun c => c != '0') then (none, r1)
    else (some (.intv (digitsToNat d1 : ℤ)), r1)

/-- Tokenizer (fuel-indexed; the fuel `length + 1` always suffices since every
step consumes at least one character).  `**` and `//` munch maximally, as in
Python.  `none` is a SyntaxError. -/
def tokenize : Nat → List Char → Option (List Tok)
  | 0, _ => none
  | _ + 1, [] => some []
  | f + 1, c :: cs =>
    if c == '+' then (tokenize f cs).map (Tok.plus :: ·)
    else if c == '-' then (tokenize f cs).map (Tok.minus :: ·)
    else if c == '*' then
      match cs with
      | '*' :: cs2 => (tokenize f cs2).map (Tok.dstar :: ·)
      | _ => (tokenize f cs).map (Tok.star :: ·)
    else if c == '/' then
      match cs with
      | '/' :: cs2 => (tokenize f cs2).map (Tok.dslash :: ·)
      | _ => (tokenize f cs).map (Tok.slash :: ·)
    else if c == '%' then (tokenize f cs).map (Tok.pct :: ·)
    else if c == '(' then (tokenize f cs).map (Tok.lpar :: ·)
    else if c == ')' then (tokenize f cs).map (Tok.rpar :: ·)
    else if isAsciiDigit c || c == '.' then
      match munchNum (c :: cs) with
      | (some v, rest) => (tokenize f rest).map (Tok.num v :: ·)
      | (none, _) => none
    else none

/-- Binary operators of the restricted language. -/
inductive BOp where
  | add | sub | mul | div | fdiv | mod | pow
deriving DecidableEq

/-- Abstract syntax of the restricted language (unary `+` is the identity on
numbers and is dropped at parse time). -/
inductive PExpr where
  | num (v : Val)
  | neg (e : PExpr)
  | bin (op : BOp) (a b : PExpr)
deriving DecidableEq

/-! Recursive-descent parser for Python's expression grammar on these tokens:
`a_expr` (`+ -`, left-assoc) over `m_expr` (`* / // %`, left-assoc) over
`u_expr` (unary signs) over `power` (`**`, right-assoc, unary allowed in the
exponent) over atoms.  Fuel-indexed; each paren nesting and each loop step
consume a token, so the generous fuel passed by `evaluate` never runs out. -/

mutual

def parseExpr : Nat → List Tok → Option (PExpr × List Tok)
  | 0, _ => none
  | f + 1, ts =>
    match parseTerm f ts with
    | none => none
    | some (a, r) => parseExprLoop f a r

def parseExprLoop : Nat → PExpr → List Tok → Option (PExpr × List Tok)
  | 0, _, _ => none
  | f + 1, a, .plus :: r =>
    match parseTerm f r with
    | none => none
    | some (b, r2) => parseExprLoop f (.bin .add a b) r2
  | f + 1, a, .minus :: r =>
    match parseTerm f r with
    | none => none
    | some (b, r2) => parseExprLoop f (.bin .sub a b) r2
  | _ + 1, a, ts => some (a, ts)

def parseTerm : Nat → List Tok → Option (PExpr × List Tok)
  | 0, _ => none
  | f + 1, ts =>
    match parseUnary f ts with
    | none => none
    | some (a, r) => parseTermLoop f a r

def parseTermLoop : Nat → PExpr → List Tok → Option (PExpr × List Tok)
  | 0, _, _ => none
  | f + 1, a, .star :: r =>
    match parseUnary f r with
    | none => none
    | some (b, r2) => parseTermLoop f (.bin .mul a b) r2
  | f + 1, a, .slash :: r =>
    match parseUnary f r with
    | none => none
    | some (b, r2) => parseTermLoop f (.bin .div a b) r2
  | f + 1, a, .dslash :: r =>
    match parseUnary f r with
    | none => none
    | some (b, r2) => parseTermLoop f (.bin .fdiv a b) r2
  | f + 1, a, .pct :: r =>
    match parseUnary f r with
    | none => none
    | some (b, r2) => parseTermLoop f (.bin .mod a b) r2
  | _ + 1, a, ts => some (a, ts)

def parseUnary : Nat → List Tok → Option (PExpr × List Tok)
  | 0, _ => none
  | f + 1, .minus :: r =>
    match parseUnary f r with
    | none => none
    | some (e, r2) => some (.neg e, r2)
  | f + 1, .plus :: r => parseUnary f r
  | f + 1, ts => parsePower f ts

def parsePower : Nat → List Tok → Option (PExpr × List Tok)
  | 0, _ => none
  | f + 1, ts =>
    match parseAtom f ts with
    | none => none
    | some (a, r) =>
      match r with
      | .dstar :: r2 =>
        match parseUnary f r2 with
        | none => none
        | some (b, r3) => some (.bin .pow a b, r3)
      | _ => some (a, r)

def parseAtom : Nat → List Tok → Option (PExpr × List Tok)
  | 0, _ => none
  | _ + 1, .num v :: r => some (.num v, r)
  | _ + 1, .lpar :: .rpar :: r => some (.num .tup0, r)
  | f + 1, .lpar :: r =>
    match parseExpr f r with
    | none => none
    | some (e, r2) =>
      match r2 with
      | .rpar :: r3 => some (e, r3)
      | _ => none
  | _ + 1, _ => none

end

/-- Runtime exceptions of the restricted grammar: `ZeroDivisionError`, and
the `TypeError`s of tuple operands (both reach distinct handlers in
`evaluate`: the former its own message, the latter the generic one). -/
inductive EErr where
  | divzero
  | typeErr
deriving DecidableEq

/-- Python unary minus (`-()` is a TypeError). -/
def vneg : Val → Except EErr Val
  | .intv n => .ok (.intv (-n))
  | .floatv f => .ok (.floatv ⟨-f.num, f.den⟩)
  | .tup0 => .error .typeErr

/-- Python `+`: int+int is int, number+number is float, `()+()` is `()`,
any other tuple operand is a TypeError. -/
def vadd : Val → Val → Except EErr Val
  | .intv a, .intv b => .ok (.intv (a + b))
  | .intv a, .floatv g => .ok (.floatv (PyFloat.add ⟨a, 1⟩ g))
  | .floatv f, .intv b => .ok (.floatv (f.add ⟨b, 1⟩))
  | .floatv f, .floatv g => .ok (.floatv (f.add g))
  | .tup0, .tup0 => .ok .tup0
  | _, _ => .error .typeErr

/-- Python binary `-` (tuples do not subtract). -/
def vsub : Val → Val → Except EErr Val
  | .intv a, .intv b => .ok (.intv (a - b))
  | .intv a, .floatv g => .ok (.floatv (PyFloat.sub ⟨a, 1⟩ g))
  | .floatv f, .intv b => .ok (.floatv (f.sub ⟨b, 1⟩))
  | .floatv f, .floatv g => .ok (.floatv (f.sub g))
  | _, _ => .error .typeErr

/-- Python `*`: sequence repetition makes `() * int` and `int * ()` the empty
tuple; a float or tuple partner of a tuple is a TypeError. -/
def vmul : Val → Val → Except EErr Val
  | .intv a, .intv b => .ok (.intv (a * b))
  | .intv a, .floatv g => .ok (.floatv (PyFloat.mul ⟨a, 1⟩ g))
  | .floatv f, .intv b => .ok (.floatv (f.mul ⟨b, 1⟩))
  | .floatv f, .floatv g => .ok (.floatv (f.mul g))
  | .tup0, .intv _ => .ok .tup0
  | .intv _, .tup0 => .ok .tup0
  | _, _ => .error .typeErr

/-- The fraction view of a number (not defined on tuples; tuple operands are
rejected before this is consulted). -/
def toF : Val → PyFloat
  | .intv n => ⟨n, 1⟩
  | .floatv f => f
  | .tup0 => ⟨0, 1⟩

/-- Python `/` (true division, always float). -/
def vdiv (a b : Val) : Except EErr Val :=
  match a, b with
  | .tup0, _ => .error .typeErr
  | _, .tup0 => .error .typeErr
  | _, _ =>
    if (toF b).isZero then .error .divzero
    else .ok (.floatv ((toF a).div (toF b)))

/-- Python `//` (floor division: int on ints, float otherwise). -/
def vfdiv (a b : Val) : Except EErr Val :=
  match a, b with
  | .tup0, _ => .error .typeErr
  | _, .tup0 => .error .typeErr
  | .intv m, .intv n =>
    if n = 0 then .error .divzero else .ok (.intv (Int.fdiv m n))
  | _, _ =>
    if (toF b).isZero then .error .divzero
    else .ok (.floatv ⟨((toF a).div (toF b)).floor, 1⟩)

/-- Python `%` (sign follows the divisor: `a - b*⌊a/b⌋`). -/
def vmod (a b : Val) : Except EErr Val :=
  match a, b with
  | .tup0, _ => .error .typeErr
  | _, .tup0 => .error .typeErr
  | .intv m, .intv n =>
    if n = 0 then .error .divzero else .ok (.intv (Int.fmod m n))
  | _, _ =>
    if (toF b).isZero then .error .divzero
    else .ok (.floatv ((toF a).sub ((toF b).mul ⟨((toF a).div (toF b)).floor, 1⟩)))

/-- Python `**`: int for int base and nonnegative int exponent, float
otherwise; `0 ** negative` is a `ZeroDivisionError`; a float exponent with
integral value behaves like that integer but yields a float; a tuple operand
is a TypeError. -/
def vpow (a b : Val) : Except EErr Val :=
  match a, b with
  | .tup0, _ => .error .typeErr
  | _, .tup0 => .error .typeErr
  | _, .intv n =>
    if 0 ≤ n then
      match a with
      | .intv m => .ok (.intv (m ^ n.toNat))
      | _ => .ok (.floatv ((toF a).powNat n.toNat))
    else if (toF a).isZero then .error .divzero
    else .ok (.floatv ((toF a).powNegNat (-n).toNat))
  | _, .floatv f =>
    if (toF a).isZero then
      if f.isZero then .ok (.floatv ⟨1, 1⟩)
      else if 0 < f.num * f.den then .ok (.floatv ⟨0, 1⟩)
      else .error .divzero
    else if f.isInt then
      if 0 ≤ f.toInt then .ok (.floatv ((toF a).powNat f.toInt.toNat))
      else .ok (.floatv ((toF a).powNegNat (-f.toInt).toNat))
    else .ok (.floatv (PyFloat.powApprox (toF a) f))

/-- Evaluation of a parsed expression: operands first (left to right), then
the operation — matching Python's order of raising `ZeroDivisionError`
against the `TypeError`s of tuples. -/
def evalE : PExpr → Except EErr Val
  | .num v => .ok v
  | .neg e => (evalE e).bind vneg
  | .bin op a b =>
    match evalE a, evalE b with
    | .ok x, .ok y =>
      match op with
      | .add => vadd x y
      | .sub => vsub x y
      | .mul => vmul x y
      | .div => vdiv x y
      | .fdiv => vfdiv x y
      | .mod => vmod x y
      | .pow => vpow x y
    | .error e, _ => .error e
    | _, .error e => .error e

/-- Step 4 of `evaluate`: a float with integral value becomes an int. -/
def intify : Val → Val
  | .floatv f => if f.isInt then .intv f.toInt else .floatv f
  | v => v

/-- The result of `evaluate`: a value or a human-readable error string. -/
inductive EvalResult where
  | val (v : Val)
  | err (s : String)
deriving DecidableEq

/-- The validation class `[0-9+\\-*/%.()]` of features/calculator.py (note:
no whitespace — spaces were already removed, any other whitespace fails the
validation). -/
def calcChar (c : Char) : Bool :=
  isAsciiDigit c || c == '+' || c == '-' || c == '*' || c == '/' || c == '%' ||
  c == '.' || c == '(' || c == ')'

/-- `evaluate` of features/calculator.py: remove spaces (`str.replace(" ", "")`),
validate `[0-9+\\-*/%.()]+`, evaluate; an integral float becomes int;
`ZeroDivisionError` and all other exceptions become fixed error strings.
Python raises `SyntaxError` at compile time, before any arithmetic, so
parsing here fully precedes evaluation. -/
def evaluate (expr : String) : EvalResult :=
  let e := expr.data.filter (fun c => c ≠ ' ')
  if e.isEmpty || !e.all calcChar then .err "Invalid characters in expression"
  else
    match tokenize (e.length + 1) e with
    | none => .err "Invalid expression"
    | some toks =>
      match parseExpr (8 * toks.length + 8) toks with
      | some (ast, []) =>
        match evalE ast with
        | .ok v => .val (intify v)
        | .error .divzero => .err "Division by zero is not allowed"
        | .error .typeErr => .err "Invalid expression"
      | _ => .err "Invalid expression"

/-- Does the value have no fractional part?  (True of every int, of a float
with integral value; a tuple is not a number and has no integral value.) -/
def noFrac : Val → Bool
  | .intv _ => true
  | .floatv f => f.isInt
  | .tup0 => false

/-- The largest id among stored tasks (used to state what `add_task` does
*not* do: ids are `count + 1`, not `max-existing + 1`). -/
def maxTaskId (ts : List Task) : Nat := ts.foldr (fun t m => max t.id m) 0

/-! ## Supporting lemmas -/

/-- `Char.ofNat` round-trips on valid (BMP) code points. -/
theorem toNat_ofNat_valid {n : Nat} (h : n < 55296) : (Char.ofNat n).toNat = n := by
  unfold Char.ofNat
  rw [dif_pos (Or.inl h)]
  simp [Char.ofNatAux, Char.toNat, UInt32.ofNat', UInt32.toNat]

/-- The three possible shapes of `pyLower c`. -/
theorem pyLower_toNat (c : Char) :
    (isAsciiUpper c = true ∧ (pyLower c).toNat = c.toNat + 32) ∨
    (c = 'Â' ∧ pyLower c = 'â') ∨
    (isAsciiUpper c = false ∧ c ≠ 'Â' ∧ pyLower c = c) := by
  by_cases h1 : isAsciiUpper c = true
  · refine Or.inl ⟨h1, ?_⟩
    simp only [pyLower, if_pos h1]
    have : c.toNat ≤ 90 := by
      simp only [isAsciiUpper, Bool.and_eq_true, decide_eq_true_eq] at h1
      exact h1.2
    exact toNat_ofNat_valid (by omega)
  · by_cases h2 : c = 'Â'
    · exact Or.inr (Or.inl ⟨h2, by simp [pyLower, h1, h2]⟩)
    · exact Or.inr (Or.inr ⟨by simpa using h1, h2, by simp [pyLower, h1, h2]⟩)

/-- `pyLower` creates no new digits. -/
theorem digit_pyLower {c : Char} (h : isAsciiDigit (pyLower c) = true) :
    isAsciiDigit c = true := by
  rcases pyLower_toNat c with ⟨hu, ht⟩ | ⟨rfl, he⟩ | ⟨_, _, he⟩
  · simp only [isAsciiDigit, Bool.and_eq_true, decide_eq_true_eq] at h ⊢
    simp only [isAsciiUpper, Bool.and_eq_true, decide_eq_true_eq] at hu
    omega
  · rw [he] at h
    exact absurd h (by decide)
  · rwa [he] at h

/-- A character outside `A`–`Z` and not `Â` is fixed by `pyLower`. -/
theorem pyLower_eq_self_of_range {c : Char}
    (h : c.toNat < 65 ∨ (90 < c.toNat ∧ c.toNat ≠ 194)) : pyLower c = c := by
  have hu : isAsciiUpper c = false := by
    rw [Bool.eq_false_iff]
    simp only [isAsciiUpper, ne_eq, Bool.and_eq_true, decide_eq_true_eq, not_and, not_le]
    omega
  have hA : c ≠ 'Â' := by
    intro he
    have : c.toNat = 194 := by rw [he]; rfl
    omega
  simp [pyLower, hu, hA]

/-- Whitespace characters are fixed by `pyLower`. -/
theorem pySpace_pyLower {c : Char} (h : pySpace c = true) : pyLower c = c := by
  simp only [pySpace, Bool.or_eq_true, beq_iff_eq] at h
  rcases h with ((((rfl | rfl) | rfl) | rfl) | rfl) | rfl <;> decide

/-- Characters kept by `_normalize`'s substitution are fixed by `pyLower`. -/
theorem normKeep_pyLower {c : Char} (h : normKeep c = true) : pyLower c = c := by
  simp only [normKeep, Bool.or_eq_true] at h
  rcases h with (h | h) | h
  · simp only [isAsciiLower, Bool.and_eq_true, decide_eq_true_eq] at h
    exact pyLower_eq_self_of_range (Or.inr ⟨by omega, by omega⟩)
  · simp only [isAsciiDigit, Bool.and_eq_true, decide_eq_true_eq] at h
    exact pyLower_eq_self_of_range (Or.inl (by omega))
  · exact pySpace_pyLower h

/-- The head of a `dropWhile` result fails the predicate. -/
theorem dropWhile_head_false {α : Type} {p : α → Bool} :
    ∀ {l : List α} {a : α} {tl : List α}, l.dropWhile p = a :: tl → p a = false := by
  intro l
  induction l with
  | nil => intro a tl h; cases h
  | cons b bs ih =>
    intro a tl h
    rw [List.dropWhile_cons] at h
    by_cases hb : p b = true
    · rw [if_pos hb] at h
      exact ih h
    · rw [if_neg hb] at h
      obtain ⟨rfl, -⟩ : b = a ∧ bs = tl := by injection h with h1 h2; exact ⟨h1, h2⟩
      simpa using hb

/-- `str.strip` is idempotent. -/
theorem pyStripL_idem (l : List Char) : pyStripL (pyStripL l) = pyStripL l := by
  unfold pyStripL
  have h1 : List.dropWhile pySpace ((l.dropWhile pySpace).rdropWhile pySpace) =
      (l.dropWhile pySpace).rdropWhile pySpace := by
    obtain ⟨t, ht⟩ := List.rdropWhile_prefix pySpace (l.dropWhile pySpace)
    cases hM : (l.dropWhile pySpace).rdropWhile pySpace with
    | nil => rfl
    | cons a tl =>
      rw [List.dropWhile_cons, if_neg]
      have hX : l.dropWhile pySpace = a :: (tl ++ t) := by
        rw [← ht, hM]; simp
      simp [dropWhile_head_false hX]
  rw [h1, List.rdropWhile_idempotent]

/-- A pointwise-fixed map is the identity. -/
theorem map_eq_self_of_fixed {α : Type} {f : α → α} :
    ∀ {l : List α}, (∀ c ∈ l, f c = c) → l.map f = l := by
  intro l
  induction l with
  | nil => intro _; rfl
  | cons a t ih =>
    intro h
    simp only [List.map_cons, h a (List.mem_cons_self a t), List.cons.injEq, true_and]
    exact ih fun c hc => h c (List.mem_cons_of_mem a hc)

/-- Stripping only discards elements. -/
theorem mem_pyStripL {c : Char} {l : List Char} (h : c ∈ pyStripL l) : c ∈ l := by
  unfold pyStripL at h
  have h1 := (List.rdropWhile_prefix pySpace (l.dropWhile pySpace)).sublist.subset h
  exact (List.dropWhile_sublist pySpace).subset h1

/-! ## Theorems -/

/-- **C9** (confirmed): `_normalize` is idempotent — its output (lowercased,
reduced to lowercase letters, digits and whitespace, and stripped) is a fixed
point of `_normalize`. -/
theorem c9_normalize_idempotent (s : String) :
    pyNormalize (pyNormalize s) = pyNormalize s := by
  unfold pyNormalize
  have hdata : (String.mk (pyStripL ((s.data.map pyLower).filter normKeep))).data
      = pyStripL ((s.data.map pyLower).filter normKeep) := rfl
  rw [hdata]
  have hmem : ∀ c ∈ pyStripL ((s.data.map pyLower).filter normKeep), normKeep c = true :=
    fun c hc => (List.mem_filter.mp (mem_pyStripL hc)).2
  rw [map_eq_self_of_fixed (fun c hc => normKeep_pyLower (hmem c hc)),
    List.filter_eq_self.mpr (fun c hc => hmem c hc), pyStripL_idem]

/-- **C1** (corrected), counterexample: for the message "define umbrella"
with a failing lookup (the collaborator's API yields nothing), `get_response`
returns "Meaning not found." — the string `get_meaning` produces on any
failure, since it never returns a falsy value — and not the claimed
"Sorry, I couldn't find the meaning of 'umbrella'." -/
theorem c1_counterexample :
    get_response 0 "define umbrella" none = some "Meaning not found." ∧
    "Meaning not found." ≠ "Sorry, I couldn't find the meaning of 'umbrella'." :=
  ⟨by decide, by decide⟩

/-- **C1** (corrected), amended claim: if the message is not blank, does not
normalize to the empty string, matches no intent, and the dictionary-query
detector extracts a non-empty term from the normalized message (the source
guards the stage with `if word:`, so an empty extraction falls through
instead), then on a failing lookup `get_response` returns exactly
"Meaning not found." (the string the `get_meaning` collaborator returns on
any failure — it never reports `none`, so the "Sorry, I couldnâ€™t find the
meaning of '<term>'." branch, which needs a falsy `get_meaning` result, is
not taken). -/
theorem c1_amended (pick : Nat) (msg w : String)
    (h1 : (pyStripL msg.data).isEmpty = false)
    (h2 : pyNormalize msg ≠ "")
    (h3 : matchIntent msg = none)
    (h4 : is_dictionary_query (pyNormalize msg) = some w)
    (h5 : w ≠ "") :
    get_response pick msg none = some "Meaning not found." := by
  simp only [get_response, h1, h2, h3, h4, get_meaning, Bool.false_eq_true, if_false,
    if_neg h2]
  rw [if_neg h5, if_neg (show ¬("Meaning not found." = "") by decide)]

/-- **C1** witness: the amended claim applied at the message
"define umbrella" with a failing lookup. -/
theorem c1_amended_witness :
    get_response 0 "define umbrella" none = some "Meaning not found." :=
  c1_amended 0 "define umbrella" "umbrella" (by decide) (by decide) (by decide) (by decide)
    (by decide)

/-- **C3** (confirmed): the todo round-trip from the empty store, for any
creation timestamp: `add_task "Buy milk"` succeeds and stores exactly one
task, titled "Buy milk" with status "pending" (and id 1); `mark_done 1`
turns its status to "done"; `remove_task 1` empties the store; a second
`remove_task 1` reports "Task not found". -/
theorem c3_todo_round_trip (now : String) :
    add_task now "Buy milk" [] =
      ("Task added: Buy milk", [{ id := 1, title := "Buy milk", status := "pending", created_at := now }]) ∧
    get_tasks none [{ id := 1, title := "Buy milk", status := "pending", created_at := now }] =
      [{ id := 1, title := "Buy milk", status := "pending", created_at := now }] ∧
    mark_done 1 [{ id := 1, title := "Buy milk", status := "pending", created_at := now }] =
      ("Marked done: Buy milk", [{ id := 1, title := "Buy milk", status := "done", created_at := now }]) ∧
    remove_task 1 [{ id := 1, title := "Buy milk", status := "done", created_at := now }] =
      ("Removed task: Buy milk", []) ∧
    remove_task 1 ([] : List Task) = ("Task not found", []) :=
  ⟨rfl, rfl, rfl, rfl, rfl⟩

/-- **C10** (confirmed): `add_task` assigns `len(tasks) + 1`, not
`max-existing-id + 1`, so ids are not unique: add "a", add "b", remove 1,
add "c" leaves two distinct tasks both with id 2 (count+1 = 2 though
max+1 = 3), and `mark_done 2` / `remove_task 2` touch only the
earliest-stored of the two. -/
theorem c10_duplicate_ids (n1 n2 n3 : String) :
    add_task n1 "a" [] = ("Task added: a", [⟨1, "a", "pending", n1⟩]) ∧
    add_task n2 "b" [⟨1, "a", "pending", n1⟩] =
      ("Task added: b", [⟨1, "a", "pending", n1⟩, ⟨2, "b", "pending", n2⟩]) ∧
    remove_task 1 [⟨1, "a", "pending", n1⟩, ⟨2, "b", "pending", n2⟩] =
      ("Removed task: a", [⟨2, "b", "pending", n2⟩]) ∧
    add_task n3 "c" [⟨2, "b", "pending", n2⟩] =
      ("Task added: c", [⟨2, "b", "pending", n2⟩, ⟨2, "c", "pending", n3⟩]) ∧
    ([⟨2, "b", "pending", n2⟩] : List Task).length + 1 = 2 ∧
    maxTaskId [⟨2, "b", "pending", n2⟩] + 1 = 3 ∧
    (⟨2, "b", "pending", n2⟩ : Task).id = (⟨2, "c", "pending", n3⟩ : Task).id ∧
    (⟨2, "b", "pending", n2⟩ : Task).title ≠ (⟨2, "c", "pending", n3⟩ : Task).title ∧
    mark_done 2 [⟨2, "b", "pending", n2⟩, ⟨2, "c", "pending", n3⟩] =
      ("Marked done: b", [⟨2, "b", "done", n2⟩, ⟨2, "c", "pending", n3⟩]) ∧
    remove_task 2 [⟨2, "b", "pending", n2⟩, ⟨2, "c", "pending", n3⟩] =
      ("Removed task: b", [⟨2, "c", "pending", n3⟩]) :=
  ⟨rfl, rfl, rfl, rfl, rfl, rfl, rfl, by show ("b" : String) ≠ "c"; decide, rfl, rfl⟩

/-- `intify` output with no fractional part is an int. -/
theorem noFrac_intify (v0 : Val) (h : noFrac (intify v0) = true) :
    ∃ n : ℤ, intify v0 = .intv n := by
  cases v0 with
  | intv n => exact ⟨n, rfl⟩
  | floatv f =>
    by_cases hf : f.isInt = true
    · exact ⟨f.toInt, by simp [intify, hf]⟩
    · simp [intify, noFrac, hf] at h
  | tup0 => simp [intify, noFrac] at h

/-- **C6** (confirmed): whenever `evaluate` succeeds and the numeric result
has no fractional part, the returned value is an int (never an integral
float); in particular `evaluate "2+2"` is the integer 4 (not 4.0), and the
integral float result of `"8/2"` is converted to the integer 4. -/
theorem c6_integral_result_is_int :
    (∀ (s : String) (v : Val), evaluate s = .val v → noFrac v = true → ∃ n : ℤ, v = .intv n) ∧
    evaluate "2+2" = .val (.intv 4) ∧ evaluate "8/2" = .val (.intv 4) := by
  refine ⟨?_, by decide, by decide⟩
  intro s v h hf
  simp only [evaluate] at h
  split at h
  · exact absurd h (by simp)
  · split at h
    · exact absurd h (by simp)
    · split at h
      · split at h
        · rename_i v0 heq
          obtain ⟨rfl⟩ : intify v0 = v := by injection h
          exact noFrac_intify v0 hf
        · exact absurd h (by simp)
        · exact absurd h (by simp)
      · exact absurd h (by simp)

/-- **C6** witness: the general statement applied at `"2+2"`. -/
theorem c6_witness :
    evaluate "2+2" = .val (.intv 4) ∧ ∃ n : ℤ, Val.intv 4 = .intv n :=
  ⟨by decide, c6_integral_result_is_int.1 "2+2" (.intv 4) (by decide) (by decide)⟩

/-- Every branch of `evaluate` yields a value or one of its three fixed
error strings. -/
theorem evaluate_shape (s : String) :
    (∃ v, evaluate s = .val v) ∨ evaluate s = .err "Invalid characters in expression" ∨
    evaluate s = .err "Division by zero is not allowed" ∨
    evaluate s = .err "Invalid expression" := by
  simp only [evaluate]
  split
  · exact Or.inr (Or.inl rfl)
  · split
    · exact Or.inr (Or.inr (Or.inr rfl))
    · split
      · split
        · exact Or.inl ⟨_, rfl⟩
        · exact Or.inr (Or.inr (Or.inl rfl))
        · exact Or.inr (Or.inr (Or.inr rfl))
      · exact Or.inr (Or.inr (Or.inr rfl))

/-- A non-whitespace character outside the validation class survives the
space removal and trips the invalid-characters error. -/
theorem evaluate_badchar (s : String) (c : Char) (hc : c ∈ s.data)
    (h1 : calcChar c = false) (h2 : pySpace c = false) :
    evaluate s = .err "Invalid characters in expression" := by
  have hcsp : c ≠ ' ' := by
    intro he
    rw [he] at h2
    exact absurd h2 (by decide)
  have hcs : c ∈ s.data.filter (fun x => decide (x ≠ ' ')) := by
    refine List.mem_filter.mpr ⟨hc, by simpa using hcsp⟩
  have hne : (s.data.filter (fun x => decide (x ≠ ' '))).isEmpty = false := by
    rw [Bool.eq_false_iff]
    intro hemp
    rw [List.isEmpty_iff] at hemp
    rw [hemp] at hcs
    cases hcs
  have hall : (s.data.filter (fun x => decide (x ≠ ' '))).all calcChar = false := by
    rw [← Bool.not_eq_true, List.all_eq_true]
    intro hforall
    have := hforall c hcs
    rw [h1] at this
    cases this
  simp only [evaluate, hne, hall]
  rfl

/-- **C5** (code_bug): the true parts of the claim — `evaluate` never lets an
exception escape (every input yields a value or one of the three fixed error
strings), `evaluate "10/0"` is exactly "Division by zero is not allowed",
and any input holding a non-whitespace character outside
`digits + - * / % . ( ) ` yields the invalid-characters error string —
together with the hole that falsifies "returns either a number or an error
string": Python's `eval` parses `()` as the *empty tuple*, which `evaluate`
passes through unchanged, so `evaluate "()"` is a non-number, non-error
value, contradicting the docstring's `int/float/str` contract. -/
theorem c5_evaluate_behavior :
    (∀ s : String, (∃ v, evaluate s = .val v) ∨
      evaluate s = .err "Invalid characters in expression" ∨
      evaluate s = .err "Division by zero is not allowed" ∨
      evaluate s = .err "Invalid expression") ∧
    evaluate "10/0" = .err "Division by zero is not allowed" ∧
    (∀ (s : String) (c : Char), c ∈ s.data → calcChar c = false → pySpace c = false →
      evaluate s = .err "Invalid characters in expression") ∧
    evaluate "()" = .val .tup0 ∧ isNumber .tup0 = false :=
  ⟨evaluate_shape, by decide, evaluate_badchar, by decide, by decide⟩

/-- **C5** witness: the invalid-character conjunct applied at `"2+a"` and
the shape conjunct at `"10/0"`. -/
theorem c5_witness :
    evaluate "2+a" = .err "Invalid characters in expression" :=
  c5_evaluate_behavior.2.2.1 "2+a" 'a' (by decide) (by decide) (by decide)

/-- `findIntent` returns the first table entry any of whose patterns
matches. -/
theorem findIntent_append (pre post : List (String × IntentData))
    (e : String × IntentData) (msg : String)
    (hpre : ∀ x ∈ pre, intentMatches x.2 msg = false)
    (he : intentMatches e.2 msg = true) :
    findIntent (pre ++ e :: post) msg = some e := by
  induction pre with
  | nil => simp [findIntent, he]
  | cons a t ih =>
    have ha : intentMatches a.2 msg = false := hpre a (List.mem_cons_self a t)
    simp only [List.cons_append, findIntent, ha, Bool.false_eq_true, if_false]
    exact ih fun x hx => hpre x (List.mem_cons_of_mem a hx)

/-- **C2** (corrected), counterexample: "good night" is a trigger pattern of
the goodbye intent and occurs as a whole phrase in the message "good night",
yet the pattern-matching stage answers from the greet intent (which also
lists "good night" and is scanned first), and no greet reply lies in
goodbye's reply list. -/
theorem c2_counterexample :
    "good night" ∈ goodbyeData.patterns ∧
    wwSearch "good night".data "good night".data = true ∧
    matchIntent "good night" = some ("greet", greetData) ∧
    greetData.responses.all (fun r => !goodbyeData.responses.contains r) = true :=
  ⟨by decide, by decide, by decide, by decide⟩

/-- **C2** (corrected), amended claim: for every intent `I` with pattern `p`
occurring whole-word in the message, *provided no earlier intent in the
table has a matching pattern*, the stage resolves to `I` and every possible
random choice of reply is drawn from `I`'s own reply list. -/
theorem c2_amended (pre post : List (String × IntentData)) (name : String)
    (I : IntentData) (p msg : String)
    (htable : intents = pre ++ (name, I) :: post)
    (hp : p ∈ I.patterns)
    (hm : wwSearch p.data msg.data = true)
    (hpre : ∀ e ∈ pre, intentMatches e.2 msg = false) :
    matchIntent msg = some (name, I) ∧
    ∀ pick : Nat, I.responses.getD (pick % I.responses.length) "" ∈ I.responses := by
  constructor
  · rw [matchIntent, htable]
    refine findIntent_append pre post (name, I) msg hpre ?_
    simp only [intentMatches, List.any_eq_true]
    exact ⟨p, hp, hm⟩
  · intro pick
    have hmem : (name, I) ∈ intents := by
      rw [htable]
      exact List.mem_append_right pre (List.mem_cons_self _ post)
    have hne : I.responses ≠ [] := by
      have hall : ∀ e ∈ intents, e.2.responses ≠ [] := by decide
      exact hall (name, I) hmem
    have hlt : pick % I.responses.length < I.responses.length :=
      Nat.mod_lt _ (List.length_pos.mpr hne)
    rw [List.getD_eq_getElem I.responses "" hlt]
    exact List.getElem_mem hlt

/-- **C2** witness: the amended claim at intent "goodbye", pattern
"farewell", message "farewell" (no greet pattern matches), random index 0. -/
theorem c2_amended_witness :
    matchIntent "farewell" = some ("goodbye", goodbyeData) ∧
    goodbyeData.responses.getD (0 % goodbyeData.responses.length) "" ∈ goodbyeData.responses :=
  ⟨(c2_amended [("greet", greetData)]
      [("thanks", thanksData), ("how_are_you", how_are_youData),
       ("who_are_you", who_are_youData), ("feelings", feelingsData),
       ("compliment", complimentData), ("insult", insultData)]
      "goodbye" goodbyeData "farewell" "farewell" rfl (by decide) (by decide)
      (by decide)).1,
   (c2_amended [("greet", greetData)]
      [("thanks", thanksData), ("how_are_you", how_are_youData),
       ("who_are_you", who_are_youData), ("feelings", feelingsData),
       ("compliment", complimentData), ("insult", insultData)]
      "goodbye" goodbyeData "farewell" "farewell" rfl (by decide) (by decide)
      (by decide)).2 0⟩

/-- `ciStarts` gives pointwise `pyLower`-equal characters. -/
theorem ciStarts_getElem {p : List Char} :
    ∀ {s : List Char}, ciStarts p s = true →
      ∀ i, i < p.length → ∃ a b, p[i]? = some a ∧ s[i]? = some b ∧ pyLower a = pyLower b := by
  induction p with
  | nil =>
    intro s _ i hi
    simp at hi
  | cons a as ih =>
    intro s h i hi
    cases s with
    | nil => simp [ciStarts] at h
    | cons b bs =>
      simp only [ciStarts, Bool.and_eq_true, beq_iff_eq] at h
      cases i with
      | zero => exact ⟨a, b, by simp, by simp, h.1⟩
      | succ j =>
        obtain ⟨x, y, hx, hy, hxy⟩ := ih h.2 j (by simpa using hi)
        exact ⟨x, y, by simpa using hx, by simpa using hy, hxy⟩

/-- A nonempty pattern can only `ciStarts`-match a nonempty suffix. -/
theorem ciStarts_ne_nil {p s : List Char} (hp : p ≠ []) (h : ciStarts p s = true) :
    s ≠ [] := by
  intro hs
  subst hs
  cases hc : p with
  | nil => exact hp hc
  | cons a as =>
    rw [hc] at h
    rw [show ciStarts (a :: as) [] = false from rfl] at h
    cases h

/-- A character whose `pyLower` image coincides with that of an ASCII
lowercase letter is a word character. -/
theorem isWordChar_of_ci {a b : Char} (ha : isAsciiLower a = true)
    (h : pyLower a = pyLower b) : isWordChar b = true := by
  have hrange : 97 ≤ a.toNat ∧ a.toNat ≤ 122 := by
    simpa [isAsciiLower] using ha
  have ha' : pyLower a = a :=
    pyLower_eq_self_of_range (Or.inr ⟨by omega, by omega⟩)
  rw [ha'] at h
  rcases pyLower_toNat b with ⟨hu, -⟩ | ⟨rfl, -⟩ | ⟨-, -, he⟩
  · simp [isWordChar, hu]
  · decide
  · rw [he] at h
    rw [← h]
    simp [isWordChar, ha]

/-- Every pattern of the table is nonempty and starts and ends with an ASCII
lowercase letter. -/
theorem allPatterns_shape :
    allPatterns.all (fun q => !q.data.isEmpty && isAsciiLower (q.data.headD ' ')
      && isAsciiLower (q.data.getLastD ' ')) = true := by decide

/-- **C7** (confirmed): a table pattern whose every (case-insensitive)
occurrence in the message is immediately preceded or followed by a word
character — i.e. occurs only inside a longer word — is not matched by the
compiled word-boundary regex. -/
theorem c7_no_substring_match (p msg : String) (hp : p ∈ allPatterns)
    (hocc : ∀ i < msg.data.length, ciStarts p.data (msg.data.drop i) = true →
      (i ≠ 0 ∧ wordAt msg.data (i - 1) = true) ∨
      wordAt msg.data (i + p.data.length) = true) :
    wwSearch p.data msg.data = false := by
  have hshape := (List.all_eq_true.mp allPatterns_shape) p hp
  simp only [Bool.and_eq_true, Bool.not_eq_true'] at hshape
  obtain ⟨⟨hpe, hhead⟩, hlast⟩ := hshape
  obtain ⟨a0, ptl, hpcons⟩ : ∃ a0 ptl, p.data = a0 :: ptl := by
    cases hc : p.data with
    | nil => rw [hc] at hpe; cases hpe
    | cons x xs => exact ⟨x, xs, rfl⟩
  rw [← Bool.not_eq_true, wwSearch, List.any_eq_true]
  rintro ⟨i, -, hmatch⟩
  simp only [wwMatchAt, Bool.and_eq_true] at hmatch
  obtain ⟨⟨hci, hb1⟩, hb2⟩ := hmatch
  -- the occurrence lies inside the message
  have hilt : i < msg.data.length := by
    have hne := ciStarts_ne_nil (by rw [hpcons]; exact List.cons_ne_nil _ _) hci
    by_contra hge
    exact hne (List.drop_eq_nil_of_le (by omega))
  -- the first matched character of the message is a word character
  have hw0 : wordAt msg.data i = true := by
    obtain ⟨x, y, hx, hy, hxy⟩ := ciStarts_getElem hci 0 (by rw [hpcons]; simp)
    rw [List.getElem?_drop] at hy
    have hx0 : x = a0 := by
      rw [hpcons] at hx
      simp only [List.getElem?_cons_zero, Option.some.injEq] at hx
      exact hx.symm
    rw [wordAt]
    rw [show i + 0 = i from rfl] at hy
    rw [hy]
    refine isWordChar_of_ci ?_ hxy
    rw [hx0]
    have : p.data.headD ' ' = a0 := by rw [hpcons]; rfl
    rwa [this] at hhead
  -- the last matched character of the message is a word character
  have hwlast : wordAt msg.data (i + p.data.length - 1) = true := by
    obtain ⟨x, y, hx, hy, hxy⟩ :=
      ciStarts_getElem hci (p.data.length - 1) (by rw [hpcons]; simp)
    rw [List.getElem?_drop] at hy
    have hxl : x = p.data.getLastD ' ' := by
      have hgl : p.data[p.data.length - 1]? = p.data.getLast? := by
        rw [List.getLast?_eq_getElem?]
      rw [hgl] at hx
      have : p.data.getLastD ' ' = (p.data.getLast?).getD ' ' := by
        rw [List.getLastD_eq_getLast?]
      rw [this, hx]
      rfl
    rw [wordAt]
    have harith : i + (p.data.length - 1) = i + p.data.length - 1 := by
      rw [hpcons]; simp only [List.length_cons]; omega
    rw [harith] at hy
    rw [hy]
    refine isWordChar_of_ci ?_ hxy
    rw [← hxl] at hlast
    exact hlast
  -- the boundary on one side fails
  rcases hocc i hilt hci with ⟨hi0, hwprev⟩ | hwnext
  · obtain ⟨k, rfl⟩ : ∃ k, i = k + 1 := ⟨i - 1, by omega⟩
    rw [boundaryAt] at hb1
    rw [show k + 1 - 1 = k from rfl] at hwprev
    rw [hwprev, hw0] at hb1
    cases hb1
  · obtain ⟨m, hm⟩ : ∃ m, i + p.data.length = m + 1 :=
      ⟨i + p.data.length - 1, by rw [hpcons]; simp only [List.length_cons]; omega⟩
    rw [hm, boundaryAt] at hb2
    have hm0 : m = i + p.data.length - 1 := by omega
    have hstep : i + p.data.length - 1 + 1 = i + p.data.length := by
      rw [hpcons]; simp only [List.length_cons]; omega
    have hwnext2 : wordAt msg.data (m + 1) = true := by
      rw [hm] at hwnext
      exact hwnext
    rw [hm0, hwlast] at hb2
    rw [hm0] at hwnext2
    rw [hwnext2] at hb2
    simp at hb2

/-- **C7** witness: the pattern "hi" occurs in "history" only at position 0,
followed by the word character `s`, and indeed the compiled regex does not
match. -/
theorem c7_witness : wwSearch "hi".data "history".data = false :=
  c7_no_substring_match "hi" "history" (by decide) (by decide)

/-- `dropWhile` keeps an append whose head already fails the predicate. -/
theorem dropWhile_append_of_head_false {α : Type} {p : α → Bool} {xs ys : List α}
    {a : α} {tl : List α} (hxs : xs = a :: tl) (ha : p a = false) :
    (xs ++ ys).dropWhile p = xs ++ ys := by
  subst hxs
  rw [List.cons_append, List.dropWhile_cons_of_neg (by simp [ha])]

/-- `rdropWhile` over an append whose right part is all-satisfying. -/
theorem rdropWhile_append_of_all {α : Type} {p : α → Bool} (A B : List α)
    (hB : ∀ c ∈ B, p c = true) : (A ++ B).rdropWhile p = A.rdropWhile p := by
  unfold List.rdropWhile
  rw [List.reverse_append,
    List.dropWhile_append_of_pos (fun a ha => hB a (List.mem_reverse.mp ha))]

/-- `rdropWhile` over an append whose right part does not vanish. -/
theorem rdropWhile_append_right {α : Type} {p : α → Bool} (A B : List α)
    (hB : B.rdropWhile p ≠ []) : (A ++ B).rdropWhile p = A ++ B.rdropWhile p := by
  unfold List.rdropWhile at *
  rw [List.reverse_append, List.dropWhile_append]
  have hne : (B.reverse.dropWhile p).isEmpty = false := by
    rw [Bool.eq_false_iff]
    intro he
    rw [List.isEmpty_iff] at he
    exact hB (by rw [he]; rfl)
  rw [hne]
  simp

/-- Digits are not whitespace. -/
theorem isAsciiDigit_not_pySpace {c : Char} (h : isAsciiDigit c = true) :
    pySpace c = false := by
  rw [Bool.eq_false_iff]
  intro hs
  simp only [pySpace, Bool.or_eq_true, beq_iff_eq] at hs
  rcases hs with ((((rfl | rfl) | rfl) | rfl) | rfl) | rfl <;> exact absurd h (by decide)

/-- The "remove task" rule of `_is_todo_query` with a blank remainder: the
stripped message loses its trailing whitespace and no rule fires. -/
theorem todo_remove_blank (ws : List Char) (hws : ∀ c ∈ ws, pySpace c = true) :
    is_todo_query (String.mk ("remove task ".data ++ ws)) = none := by
  have h1 : List.dropWhile pySpace ("remove task ".data ++ ws) =
      "remove task ".data ++ ws :=
    dropWhile_append_of_head_false rfl (by decide)
  have h2 : pyStripL ("remove task ".data ++ ws) = "remove task".data := by
    unfold pyStripL
    rw [h1, rdropWhile_append_of_all _ _ hws]
    decide
  unfold is_todo_query
  dsimp only []
  rw [h2]
  decide

/-- The "mark done" rule of `_is_todo_query` when no digit follows. -/
theorem todo_markdone_nodigit (rest : String)
    (hd : ∀ c ∈ rest.data.head?, isAsciiDigit c = false) :
    is_todo_query (String.mk ("mark done ".data ++ rest.data)) = none := by
  have h1 : List.dropWhile pySpace ("mark done ".data ++ rest.data) =
      "mark done ".data ++ rest.data :=
    dropWhile_append_of_head_false rfl (by decide)
  by_cases hall : ∀ c ∈ rest.data, pySpace c = true
  · have h2 : pyStripL ("mark done ".data ++ rest.data) = "mark done".data := by
      unfold pyStripL
      rw [h1, rdropWhile_append_of_all _ _ hall]
      decide
    unfold is_todo_query
    dsimp only []
    rw [h2]
    decide
  · have hR : rest.data.rdropWhile pySpace ≠ [] := by
      intro he
      exact hall (List.rdropWhile_eq_nil_iff.mp he)
    have h2 : pyStripL ("mark done ".data ++ rest.data) =
        "mark done ".data ++ rest.data.rdropWhile pySpace := by
      unfold pyStripL
      rw [h1, rdropWhile_append_right _ _ hR]
    obtain ⟨a, t, hat⟩ : ∃ a t, rest.data.rdropWhile pySpace = a :: t := by
      cases hc : rest.data.rdropWhile pySpace with
      | nil => exact absurd hc hR
      | cons x xs => exact ⟨x, xs, rfl⟩
    obtain ⟨s', hs'⟩ := List.rdropWhile_prefix pySpace rest.data
    have hhead : rest.data.head? = some a := by
      rw [← hs', hat]
      rfl
    have hnd : isAsciiDigit a = false := hd a (by rw [Option.mem_def, hhead])
    have hndl : isAsciiDigit (pyLower a) = false := by
      rw [Bool.eq_false_iff]
      intro hda
      rw [digit_pyLower hda] at hnd
      cases hnd
    unfold is_todo_query
    dsimp only []
    rw [h2, hat]
    rw [List.map_append,
      show "mark done ".data.map pyLower = "mark done ".data from by decide,
      List.map_cons]
    have c1 : "add task ".data.isPrefixOf
        ("mark done ".data ++ (pyLower a :: t.map pyLower)) = false := rfl
    have c2 : "show task".data.isPrefixOf
        ("mark done ".data ++ (pyLower a :: t.map pyLower)) = false := rfl
    have c3 : "remove task ".data.isPrefixOf
        ("mark done ".data ++ (pyLower a :: t.map pyLower)) = false := rfl
    have c4 : "mark done ".data.isPrefixOf
        ("mark done ".data ++ (pyLower a :: t.map pyLower)) = true := rfl
    have c5 : ("mark done ".data ++ (pyLower a :: t.map pyLower)).drop 10
        = pyLower a :: t.map pyLower := rfl
    rw [c1, c2, c3, c4, c5, List.takeWhile_cons_of_neg (by simp [hndl])]
    simp

/-- The "mark done" rule of `_is_todo_query` on `mark done <digits>`. -/
theorem todo_markdone_digits (ds : List Char) (hne : ds ≠ [])
    (hds : ∀ c ∈ ds, isAsciiDigit c = true) :
    is_todo_query (String.mk ("mark done ".data ++ ds)) =
      some (.done (digitsToNat ds)) := by
  have h1 : List.dropWhile pySpace ("mark done ".data ++ ds) =
      "mark done ".data ++ ds :=
    dropWhile_append_of_head_false rfl (by decide)
  have hlast : ds.rdropWhile pySpace = ds := by
    rw [List.rdropWhile_eq_self_iff]
    intro hl
    have := isAsciiDigit_not_pySpace (hds _ (List.getLast_mem hl))
    simp [this]
  have hR : ds.rdropWhile pySpace ≠ [] := by rw [hlast]; exact hne
  have h2 : pyStripL ("mark done ".data ++ ds) = "mark done ".data ++ ds := by
    unfold pyStripL
    rw [h1, rdropWhile_append_right _ _ hR, hlast]
  have hmap : ds.map pyLower = ds := map_eq_self_of_fixed (fun c hc => by
    have hdig := hds c hc
    simp only [isAsciiDigit, Bool.and_eq_true, decide_eq_true_eq] at hdig
    exact pyLower_eq_self_of_range (Or.inl (by omega)))
  obtain ⟨a, t, rfl⟩ : ∃ a t, ds = a :: t := by
    cases ds with
    | nil => exact absurd rfl hne
    | cons x xs => exact ⟨x, xs, rfl⟩
  unfold is_todo_query
  dsimp only []
  rw [h2]
  rw [List.map_append, hmap,
    show "mark done ".data.map pyLower = "mark done ".data from by decide]
  have c1 : "add task ".data.isPrefixOf ("mark done ".data ++ (a :: t)) = false := rfl
  have c2 : "show task".data.isPrefixOf ("mark done ".data ++ (a :: t)) = false := rfl
  have c3 : "remove task ".data.isPrefixOf ("mark done ".data ++ (a :: t)) = false := rfl
  have c4 : "mark done ".data.isPrefixOf ("mark done ".data ++ (a :: t)) = true := rfl
  have c5 : ("mark done ".data ++ (a :: t)).drop 10 = a :: t := rfl
  rw [c1, c2, c3, c4, c5, List.takeWhile_eq_self_iff.mpr hds]
  simp

/-- **C8** (confirmed): the todo-command detector (on the lowercased,
stripped message, rules in order, first match winning) yields no match for
"remove task " followed only by whitespace, no match for "mark done" not
followed by a digit, and `("done", int(N))` for "mark done N" with digit
string N. -/
theorem c8_todo_detector :
    (∀ ws : List Char, (∀ c ∈ ws, pySpace c = true) →
      is_todo_query (String.mk ("remove task ".data ++ ws)) = none) ∧
    (∀ rest : String, (∀ c ∈ rest.data.head?, isAsciiDigit c = false) →
      is_todo_query (String.mk ("mark done ".data ++ rest.data)) = none) ∧
    (∀ ds : List Char, ds ≠ [] → (∀ c ∈ ds, isAsciiDigit c = true) →
      is_todo_query (String.mk ("mark done ".data ++ ds)) =
        some (.done (digitsToNat ds))) :=
  ⟨todo_remove_blank, todo_markdone_nodigit, todo_markdone_digits⟩

/-- **C8** witness: the three conjuncts at "remove task  ", "mark done abc"
and "mark done 42". -/
theorem c8_witness :
    is_todo_query (String.mk ("remove task ".data ++ [' '])) = none ∧
    is_todo_query (String.mk ("mark done ".data ++ "abc".data)) = none ∧
    is_todo_query (String.mk ("mark done ".data ++ ['4', '2'])) =
      some (.done 42) :=
  ⟨c8_todo_detector.1 [' '] (by decide),
   c8_todo_detector.2.1 "abc" (by decide),
   by
     rw [c8_todo_detector.2.2 ['4', '2'] (by decide) (by decide)]
     decide⟩

/-- Whitespace is kept by the calculator detector's character class. -/
theorem pySpace_calcKeep {c : Char} (h : pySpace c = true) : calcKeep c = true := by
  simp [calcKeep, h]

/-- Stripping ignores an all-whitespace left part. -/
theorem pyStripL_space_append {S Y : List Char} (hS : ∀ c ∈ S, pySpace c = true) :
    pyStripL (S ++ Y) = pyStripL Y := by
  unfold pyStripL
  rw [List.dropWhile_append_of_pos hS]

/-- Stripping an all-whitespace list gives the empty list. -/
theorem pyStripL_all_space {l : List Char} (h : ∀ c ∈ l, pySpace c = true) :
    pyStripL l = [] := by
  unfold pyStripL
  rw [List.dropWhile_eq_nil_iff.mpr h]
  simp

/-- Dropping a leading whitespace run does not change the stripped,
calculator-filtered remainder. -/
theorem strip_filter_dropWhile (R : List Char) :
    pyStripL ((R.dropWhile pySpace).filter calcKeep) = pyStripL (R.filter calcKeep) := by
  conv_rhs => rw [← List.takeWhile_append_dropWhile pySpace R]
  rw [List.filter_append]
  exact (pyStripL_space_append (fun c hc =>
    List.mem_takeWhile_imp (List.mem_filter.mp hc).1)).symm

/-- Dropping all but the last element leaves the last element. -/
theorem drop_length_sub_one {α : Type} : ∀ (l : List α) (h : l ≠ []),
    l.drop (l.length - 1) = [l.getLast h]
  | [_], _ => rfl
  | a :: b :: t, _ => by
    have ih := drop_length_sub_one (b :: t) (List.cons_ne_nil b t)
    rw [show (a :: b :: t).drop ((a :: b :: t).length - 1)
        = (b :: t).drop ((b :: t).length - 1) from rfl, ih]
    rw [List.getLast_cons (List.cons_ne_nil b t)]

/-- `\s+(.+)$` against a remainder `" " ++ R` with `R` nonempty and
newline-free: the match succeeds and its capture strips-and-filters to the
same expression as `R` itself. -/
theorem matchTailGroup_space_cons (R : List Char) (hR : R ≠ []) (hRn : '\n' ∉ R) :
    ∃ g, matchTailGroup (' ' :: R) = some g ∧
      pyStripL (g.filter calcKeep) = pyStripL (R.filter calcKeep) := by
  have hlastne : ((' ' :: R).getLast? == some '\n') = false := by
    rw [Bool.eq_false_iff]
    intro hbeq
    rw [beq_iff_eq] at hbeq
    have hmem : '\n' ∈ ' ' :: R := List.mem_of_mem_getLast? (by rw [hbeq]; rfl)
    rcases List.mem_cons.mp hmem with h | h
    · exact absurd h (by decide)
    · exact hRn h
  unfold matchTailGroup
  dsimp only []
  simp only [hlastne, Bool.false_eq_true, if_false]
  rw [List.takeWhile_cons_of_pos (by decide), List.dropWhile_cons_of_pos (by decide)]
  by_cases hall : ∀ c ∈ R, pySpace c = true
  · -- all-whitespace remainder: `\s+` backtracks one character to `(.+)`
    rw [List.dropWhile_eq_nil_iff.mpr hall, List.takeWhile_eq_self_iff.mpr hall]
    have hlen : (2 ≤ (' ' :: R).length) := by
      cases R with
      | nil => exact absurd rfl hR
      | cons x xs => simp
    have hbne : ((' ' :: R).getLast? != some '\n') = true := by
      rw [show ((' ' :: R).getLast? != some '\n')
          = !((' ' :: R).getLast? == some '\n') from rfl, hlastne]
      rfl
    simp only [List.isEmpty_nil, Bool.not_true, Bool.false_eq_true, if_false,
      decide_eq_true hlen, hbne, Bool.and_self, if_true]
    refine ⟨_, rfl, ?_⟩
    rw [drop_length_sub_one (' ' :: R) (List.cons_ne_nil _ _)]
    have hlastmem : (' ' :: R).getLast (List.cons_ne_nil _ _) ∈ ' ' :: R :=
      List.getLast_mem _
    have hlastsp : pySpace ((' ' :: R).getLast (List.cons_ne_nil _ _)) = true := by
      rcases List.mem_cons.mp hlastmem with h | h
      · rw [h]; decide
      · exact hall _ h
    rw [pyStripL_all_space (fun c hc => by
      rw [List.mem_filter] at hc
      rcases List.mem_singleton.mp hc.1 with rfl
      exact hlastsp)]
    rw [List.filter_eq_self.mpr (fun c hc => pySpace_calcKeep (hall c hc)),
      pyStripL_all_space hall]
  · -- a real token follows the whitespace
    have hg : R.dropWhile pySpace ≠ [] := by
      intro he
      exact hall (List.dropWhile_eq_nil_iff.mp he)
    have hgne : (R.dropWhile pySpace).isEmpty = false := by
      rw [Bool.eq_false_iff]
      intro he
      exact hg (List.isEmpty_iff.mp he)
    have hgnl : (R.dropWhile pySpace).all (fun x => x ≠ '\n') = true := by
      rw [List.all_eq_true]
      intro c hc
      have : c ∈ R := (List.dropWhile_sublist pySpace).subset hc
      simp only [ne_eq, decide_eq_true_eq]
      intro rfl2
      rw [rfl2] at this
      exact hRn this
    simp only [hgne, Bool.not_false, if_true, List.isEmpty_cons, Bool.not_false,
      Bool.true_and, hgnl, if_true]
    exact ⟨_, rfl, strip_filter_dropWhile R⟩

/-- **C4** (confirmed): for every lowercased message `<ws>what is <R>`,
`<ws>calculate <R>` or `<ws>solve <R>` (with `R` nonempty and newline-free),
the calculator-expression detector returns `R` reduced to the class
`[0-9+\-*/%.()\s]` and stripped, exactly when an arithmetic operator
survives the reduction; otherwise it returns no extraction (the other
phrasal patterns cannot fire, and the keyword's letters rule out the
whole-message path). -/
theorem c4_phrasal_calculator (ws kw R : List Char)
    (hws : ∀ c ∈ ws, pySpace c = true)
    (hkw : kw = "what is".data ∨ kw = "calculate".data ∨ kw = "solve".data)
    (hR : R ≠ []) (hRn : '\n' ∉ R)
    (hlow : ∀ c ∈ R, pyLower c = c) :
    is_calculator_query (String.mk (ws ++ kw ++ (' ' :: R))) =
      (if hasOpL (pyStripL (R.filter calcKeep)) = true then
        some (String.mk (pyStripL (R.filter calcKeep))) else none) := by
  obtain ⟨g, hmt, hge⟩ := matchTailGroup_space_cons R hR hRn
  rcases hkw with rfl | rfl | rfl
  · -- "what is"
    have hmsg : ((ws ++ "what is".data) ++ (' ' :: R)).map pyLower
        = (ws ++ "what is".data) ++ (' ' :: R) := by
      refine map_eq_self_of_fixed ?_
      intro c hc
      rcases List.mem_append.mp hc with h1 | h2
      · rcases List.mem_append.mp h1 with hw | hk
        · exact pySpace_pyLower (hws c hw)
        · exact (by decide : ∀ x ∈ ("what is".data), pyLower x = x) c hk
      · rcases List.mem_cons.mp h2 with rfl | hr
        · decide
        · exact hlow c hr
    have hdrop : ((ws ++ "what is".data) ++ (' ' :: R)).dropWhile pySpace
        = "what is".data ++ (' ' :: R) := by
      rw [List.append_assoc, List.dropWhile_append_of_pos hws]
      exact dropWhile_append_of_head_false rfl (by decide)
    unfold is_calculator_query
    dsimp only []
    rw [hmsg]
    unfold tryPhrasal
    rw [hdrop]
    rw [show eatKws ["what".data, "is".data] ("what is".data ++ (' ' :: R))
          = some (' ' :: R) from rfl,
        show eatKws ["calculate".data] ("what is".data ++ (' ' :: R))
          = (none : Option (List Char)) from rfl,
        show eatKws ["solve".data] ("what is".data ++ (' ' :: R))
          = (none : Option (List Char)) from rfl]
    dsimp only []
    rw [hmt]
    dsimp only []
    rw [hge]
    by_cases hop : hasOpL (pyStripL (R.filter calcKeep)) = true
    · rw [hop]
      rfl
    · rw [Bool.not_eq_true] at hop
      rw [hop]
      have hfall : ((ws ++ "what is".data) ++ (' ' :: R)).all calcKeep = false := by
        rw [Bool.eq_false_iff]
        intro hallt
        have hwmem : 'w' ∈ (ws ++ "what is".data) ++ (' ' :: R) :=
          List.mem_append_left _ (List.mem_append_right _ (by decide))
        exact absurd (List.all_eq_true.mp hallt 'w' hwmem) (by decide)
      rw [hfall]
      simp
  · -- "calculate"
    have hmsg : ((ws ++ "calculate".data) ++ (' ' :: R)).map pyLower
        = (ws ++ "calculate".data) ++ (' ' :: R) := by
      refine map_eq_self_of_fixed ?_
      intro c hc
      rcases List.mem_append.mp hc with h1 | h2
      · rcases List.mem_append.mp h1 with hw | hk
        · exact pySpace_pyLower (hws c hw)
        · exact (by decide : ∀ x ∈ ("calculate".data), pyLower x = x) c hk
      · rcases List.mem_cons.mp h2 with rfl | hr
        · decide
        · exact hlow c hr
    have hdrop : ((ws ++ "calculate".data) ++ (' ' :: R)).dropWhile pySpace
        = "calculate".data ++ (' ' :: R) := by
      rw [List.append_assoc, List.dropWhile_append_of_pos hws]
      exact dropWhile_append_of_head_false rfl (by decide)
    unfold is_calculator_query
    dsimp only []
    rw [hmsg]
    unfold tryPhrasal
    rw [hdrop]
    rw [show eatKws ["what".data, "is".data] ("calculate".data ++ (' ' :: R))
          = (none : Option (List Char)) from rfl,
        show eatKws ["calculate".data] ("calculate".data ++ (' ' :: R))
          = some (' ' :: R) from rfl,
        show eatKws ["solve".data] ("calculate".data ++ (' ' :: R))
          = (none : Option (List Char)) from rfl]
    dsimp only []
    rw [hmt]
    dsimp only []
    rw [hge]
    by_cases hop : hasOpL (pyStripL (R.filter calcKeep)) = true
    · rw [hop]
      rfl
    · rw [Bool.not_eq_true] at hop
      rw [hop]
      have hfall : ((ws ++ "calculate".data) ++ (' ' :: R)).all calcKeep = false := by
        rw [Bool.eq_false_iff]
        intro hallt
        have hwmem : 'c' ∈ (ws ++ "calculate".data) ++ (' ' :: R) :=
          List.mem_append_left _ (List.mem_append_right _ (by decide))
        exact absurd (List.all_eq_true.mp hallt 'c' hwmem) (by decide)
      rw [hfall]
      simp
  · -- "solve"
    have hmsg : ((ws ++ "solve".data) ++ (' ' :: R)).map pyLower
        = (ws ++ "solve".data) ++ (' ' :: R) := by
      refine map_eq_self_of_fixed ?_
      intro c hc
      rcases List.mem_append.mp hc with h1 | h2
      · rcases List.mem_append.mp h1 with hw | hk
        · exact pySpace_pyLower (hws c hw)
        · exact (by decide : ∀ x ∈ ("solve".data), pyLower x = x) c hk
      · rcases List.mem_cons.mp h2 with rfl | hr
        · decide
        · exact hlow c hr
    have hdrop : ((ws ++ "solve".data) ++ (' ' :: R)).dropWhile pySpace
        = "solve".data ++ (' ' :: R) := by
      rw [List.append_assoc, List.dropWhile_append_of_pos hws]
      exact dropWhile_append_of_head_false rfl (by decide)
    unfold is_calculator_query
    dsimp only []
    rw [hmsg]
    unfold tryPhrasal
    rw [hdrop]
    rw [show eatKws ["what".data, "is".data] ("solve".data ++ (' ' :: R))
          = (none : Option (List Char)) from rfl,
        show eatKws ["calculate".data] ("solve".data ++ (' ' :: R))
          = (none : Option (List Char)) from rfl,
        show eatKws ["solve".data] ("solve".data ++ (' ' :: R))
          = some (' ' :: R) from rfl]
    dsimp only []
    rw [hmt]
    dsimp only []
    rw [hge]
    by_cases hop : hasOpL (pyStripL (R.filter calcKeep)) = true
    · rw [hop]
      rfl
    · rw [Bool.not_eq_true] at hop
      rw [hop]
      have hfall : ((ws ++ "solve".data) ++ (' ' :: R)).all calcKeep = false := by
        rw [Bool.eq_false_iff]
        intro hallt
        have hwmem : 's' ∈ (ws ++ "solve".data) ++ (' ' :: R) :=
          List.mem_append_left _ (List.mem_append_right _ (by decide))
        exact absurd (List.all_eq_true.mp hallt 's' hwmem) (by decide)
      rw [hfall]
      simp

/-- **C4** witness: the theorem applied at "what is 5+7" (extraction "5+7")
and at "what is your name" (no operator survives, no extraction). -/
theorem c4_witness :
    is_calculator_query (String.mk ([] ++ "what is".data ++ (' ' :: "5+7".data)))
      = some "5+7" ∧
    is_calculator_query (String.mk ([] ++ "what is".data ++ (' ' :: "your name".data)))
      = none := by
  constructor
  · rw [c4_phrasal_calculator [] "what is".data "5+7".data (by decide)
      (Or.inl rfl) (by decide) (by decide) (by decide)]
    decide
  · rw [c4_phrasal_calculator [] "what is".data "your name".data (by decide)
      (Or.inl rfl) (by decide) (by decide) (by decide)]
    decide

end AVA